import Mathlib

/-!
Shallow embedding of `src/main.go` (bucketsearch), a CLI client for a
bucket-search REST API.  The pure data and control structure of the
program is transcribed as executable Lean definitions: the decoded page
envelopes, the page-size clamp, the pagination loops of `handleFiles`
and `handleBuckets` (parameterised by a deterministic page source, i.e.
a function from the request offset to the decoded envelope, since every
other query parameter is fixed for the duration of a run), the
client-side bucket type filter, the CSV and JSON renderings of records,
the progress line, and the stats passthrough.  Network transport and
fatal-error process exits are outside the model: a run is the sequence
of page fetches between the first request and the loop's `break`.
-/

namespace BucketSearch

/-- Model of a Go `any` value holding a JSON-decoded opaque identifier
(fields `File.ID`, `File.BucketID`, `Bucket.ID`): per the data model it
may arrive from the API as a number or a string. -/
inductive AnyVal where
  | num (n : Int)
  | str (s : String)
deriving DecidableEq

/-- Go struct `File` (src/main.go lines 20-29). -/
structure File where
  id : AnyVal
  bucket : String
  bucketId : AnyVal
  name : String
  url : String
  size : Int
  type : String
  lastModified : Int
deriving DecidableEq

/-- Go struct `Bucket` (src/main.go lines 38-43). -/
structure Bucket where
  id : AnyVal
  bucket : String
  fileCount : Int
  type : String
deriving DecidableEq

/-- Decoded page envelope: the record list plus the reported total
`meta.results`.  Merges Go's `FilesResponse` (lines 31-36) and
`BucketsResponse` (lines 45-50), which differ only in the record type. -/
structure Page (α : Type) where
  records : List α
  results : Int
deriving DecidableEq

/-- Page-size clamp shared by `handleFiles` (lines 122-125) and
`handleBuckets` (lines 206-209):
`if pageSize <= 0 || pageSize > 1000 { pageSize = 1000 }`. -/
def clampPageSize (limit : Int) : Int :=
  if limit ≤ 0 ∨ limit > 1000 then 1000 else limit

/-- Progress line printed after every page (lines 184-188 and 283-287):
a carriage return moves the cursor back to the start of the line, then
the Chinese text 已获取 X / Y 条 ("fetched X / Y records") when the
tracked total is positive, otherwise 已获取 X 条 ("fetched X records"). -/
def progressLine (fetched total : Int) : String :=
  if total > 0 then
    "\r已获取 " ++ toString fetched ++ " / " ++ toString total ++ " 条"
  else
    "\r已获取 " ++ toString fetched ++ " 条"

/-- Capture step for the reported total (lines 181-183 and 280-282):
`if total == -1 { total = resp.Meta.Results }`. -/
def capture (total reported : Int) : Int :=
  if total = -1 then reported else total

/-- Model of Go `strings.EqualFold` (line 252): case-insensitive string
equality by per-character case folding, which on the ASCII provider
tags this program compares coincides with `Char.toLower`. -/
def eqFold (s t : String) : Bool :=
  s.data.map Char.toLower == t.data.map Char.toLower

/-- Client-side re-filter of a buckets page (lines 247-257): when a
cloud type filter is present, keep exactly the buckets whose type tag
matches it case-insensitively, preserving order. -/
def filterBuckets (cloudType : String) (bs : List Bucket) : List Bucket :=
  if cloudType = "" then bs else bs.filter (fun b => eqFold b.type cloudType)

/-- Observable outcome of one pagination run: the request offsets
issued in order, the records forwarded to the sink in arrival order,
the progress lines printed, and the final tracked total. -/
structure Run (α : Type) where
  offsets : List Int
  records : List α
  progress : List String
  total : Int
deriving DecidableEq

/-- The pagination loop shared by `handleFiles` (lines 141-194) and
`handleBuckets` (lines 229-293), parameterised by the deterministic
page source `api` (offset to decoded envelope), the per-page forwarding
step `fwd` (the identity for files, the client-side type filter for
buckets), and the effective page size.  Each iteration fetches the page
at the current offset, forwards `fwd page` to the sink, adds the
forwarded count to the cumulative counter, captures the reported total
while the tracker is -1, prints a progress line, and breaks when the
raw page is shorter than the page size or a positive tracked total is
reached or exceeded by offset + pageSize; otherwise it advances the
offset by the page size.  `fuel` bounds the number of iterations
modelled; `none` means the loop had not yet stopped. -/
def paginate (api : Int → Page α) (fwd : List α → List α) (pageSize : Int) :
    Nat → Int → Int → Int → Option (Run α)
  | 0, _, _, _ => none
  | fuel + 1, offset, total, fetched =>
    let page := api offset
    let out := fwd page.records
    let fetched' := fetched + (out.length : Int)
    let total' := capture total page.results
    let line := progressLine fetched' total'
    if ((page.records.length : Int) < pageSize ∨
        (total' > 0 ∧ offset + pageSize ≥ total')) then
      some ⟨[offset], out, [line], total'⟩
    else
      (paginate api fwd pageSize fuel (offset + pageSize) total' fetched').map
        (fun r => ⟨offset :: r.offsets, out ++ r.records, line :: r.progress, r.total⟩)

/-- The `handleFiles` pagination run (lines 121-194): effective page
size is the clamped `-limit`, the initial offset is `-start`, the total
tracker starts at -1, and every record of every page is forwarded. -/
def handleFiles (api : Int → Page File) (limit start : Int) (fuel : Nat) :
    Option (Run File) :=
  paginate api id (clampPageSize limit) fuel start (-1) 0

/-- The `handleBuckets` pagination run (lines 205-293): like
`handleFiles`, but each page is re-filtered client-side by the cloud
type filter before being forwarded. -/
def handleBuckets (api : Int → Page Bucket) (cloudType : String)
    (limit start : Int) (fuel : Nat) : Option (Run Bucket) :=
  paginate api (filterBuckets cloudType) (clampPageSize limit) fuel start (-1) 0

/-- Tracked total after iteration `k` of a run entering offset `S` with
tracker value `t`: the loop body's capture step iterated along the page
sequence. -/
def trackedTotal (api : Int → Page α) (P : Int) : Int → Int → Nat → Int
  | S, t, 0 => capture t (api S).results
  | S, t, k + 1 => trackedTotal api P (S + P) (capture t (api S).results) k

/-- Stop condition of iteration `k` of the loop (lines 190-193 and
289-292), stated against the tracked total after that iteration's
capture step: the raw page at offset `S + k*P` is shorter than the page
size, or a positive tracked total is reached or exceeded. -/
def stopCond (api : Int → Page α) (P S t : Int) (k : Nat) : Prop :=
  ((api (S + (k : Int) * P)).records.length : Int) < P ∨
    (trackedTotal api P S t k > 0 ∧
      S + (k : Int) * P + P ≥ trackedTotal api P S t k)

instance (api : Int → Page α) (P S t : Int) (k : Nat) :
    Decidable (stopCond api P S t k) := by
  unfold stopCond
  infer_instance

/-- Progress lines produced along a list of requested offsets, folding
the cumulative forwarded count and the capture step exactly as the loop
body does. -/
def progressOf (api : Int → Page α) (fwd : List α → List α) :
    Int → Int → List Int → List String
  | _, _, [] => []
  | fetched, total, o :: os =>
    let out := fwd (api o).records
    let fetched' := fetched + (out.length : Int)
    let total' := capture total (api o).results
    progressLine fetched' total' :: progressOf api fwd fetched' total' os

/-- Tracker value after folding the capture step over a list of
request offsets. -/
def totalAfter (api : Int → Page α) : Int → List Int → Int
  | t, [] => t
  | t, o :: os => totalAfter api (capture t (api o).results) os

/-- Rendering `fmt.Sprint` applies to a decoded opaque identifier when
building a CSV cell (lines 165, 167 and 267): a number prints in
decimal, a string prints as itself. -/
def sprintAny : AnyVal → String
  | .num n => toString n
  | .str s => s

/-- Civil date (year, month, day, proleptic Gregorian) from a count of
days since 1970-01-01, by the standard era-based conversion; all
divisions act on non-negative operands after the era shift, so Lean's
truncating `Int` division agrees with the C-style original. -/
def civilFromDays (z0 : Int) : Int × Int × Int :=
  let z := z0 + 719468
  let era := (if 0 ≤ z then z else z - 146096) / 146097
  let doe := z - era * 146097
  let yoe := (doe - doe / 1460 + doe / 36524 - doe / 146096) / 365
  let y := yoe + era * 400
  let doy := doe - (365 * yoe + yoe / 4 - yoe / 100)
  let mp := (5 * doy + 2) / 153
  let d := doy - (153 * mp + 2) / 5 + 1
  let m := if mp < 10 then mp + 3 else mp - 9
  (if m ≤ 2 then y + 1 else y, m, d)

/-- Two-digit zero-padded decimal. -/
def pad2 (n : Int) : String :=
  if n < 10 then "0" ++ toString n else toString n

/-- Four-digit zero-padded decimal (years in this model's range). -/
def pad4 (n : Int) : String :=
  if n < 10 then "000" ++ toString n
  else if n < 100 then "00" ++ toString n
  else if n < 1000 then "0" ++ toString n
  else toString n

/-- Model of `time.Unix(file.LastModified, 0).Format(time.RFC3339)`
(line 172), with the process time zone fixed to UTC so the numeric
offset renders as `Z`. -/
def rfc3339FromEpoch (sec : Int) : String :=
  let days := sec.fdiv 86400
  let rem := sec.emod 86400
  let ymd := civilFromDays days
  let hh := rem / 3600
  let mi := rem % 3600 / 60
  let ss := rem % 60
  pad4 ymd.1 ++ "-" ++ pad2 ymd.2.1 ++ "-" ++ pad2 ymd.2.2 ++ "T" ++
    pad2 hh ++ ":" ++ pad2 mi ++ ":" ++ pad2 ss ++ "Z"

/-- CSV data row written for one file record (lines 163-174): id,
bucket, bucketId, name, url, size, type, and the last-modified epoch
rendered as RFC-3339 text. -/
def fileCSVRow (f : File) : List String :=
  [sprintAny f.id, f.bucket, sprintAny f.bucketId, f.name, f.url,
    toString f.size, f.type, rfc3339FromEpoch f.lastModified]

/-- JSON scalar values occurring in this program's record output. -/
inductive JsonVal where
  | num (n : Int)
  | str (s : String)
deriving DecidableEq

/-- JSON value of a decoded opaque identifier when re-marshalled. -/
def anyToJson : AnyVal → JsonVal
  | .num n => .num n
  | .str s => .str s

/-- Plain (unquoted) rendering of a JSON scalar, used to compare field
values across the two output formats. -/
def JsonVal.plain : JsonVal → String
  | .num n => toString n
  | .str s => s

/-- Field list of the JSON object `encoding/json` produces for a
`File` (struct tags at lines 20-29), in declaration order. -/
def fileJSONFields (f : File) : List (String × JsonVal) :=
  [("id", anyToJson f.id), ("bucket", .str f.bucket),
   ("bucketId", anyToJson f.bucketId), ("name", .str f.name),
   ("url", .str f.url), ("size", .num f.size), ("type", .str f.type),
   ("lastModified", .num f.lastModified)]

/-- Lower-case hexadecimal digit. -/
def hexDigit (n : Nat) : String :=
  if n < 10 then toString n
  else if n = 10 then "a" else if n = 11 then "b" else if n = 12 then "c"
  else if n = 13 then "d" else if n = 14 then "e" else "f"

/-- Escape of one character inside a JSON string literal, following Go
`encoding/json` with its default HTML escaping. -/
def jsonEscapeChar (c : Char) : String :=
  if c = '"' then "\\\""
  else if c = '\\' then "\\\\"
  else if c = '\n' then "\\n"
  else if c = '\r' then "\\r"
  else if c = '\t' then "\\t"
  else if c = '<' then "\\u003c"
  else if c = '>' then "\\u003e"
  else if c = '&' then "\\u0026"
  else if c.toNat < 32 then
    "\\u00" ++ hexDigit (c.toNat / 16) ++ hexDigit (c.toNat % 16)
  else if c.toNat = 8232 then "\\u2028"
  else if c.toNat = 8233 then "\\u2029"
  else String.singleton c

/-- Quoted JSON string literal. -/
def jsonQuote (s : String) : String :=
  "\"" ++ String.join (s.toList.map jsonEscapeChar) ++ "\""

/-- Textual rendering of a JSON scalar. -/
def JsonVal.render : JsonVal → String
  | .num n => toString n
  | .str s => jsonQuote s

/-- One `File` as `json.MarshalIndent(allFiles, "", "  ")` renders it
as an element of the top-level array: object braces at element indent,
fields one level deeper. -/
def fileJSONIndented (f : File) : String :=
  "\x7b\n    " ++
    String.intercalate ",\n    "
      ((fileJSONFields f).map (fun p => jsonQuote p.1 ++ ": " ++ p.2.render)) ++
  "\n  \x7d"

/-- Bytes `handleFiles` writes to standard output when no file sink was
chosen (lines 199-201): `json.MarshalIndent` of the accumulated slice.
The Go slice `allFiles` starts as `nil` and remains `nil` when no
record was ever appended, and `encoding/json` marshals a nil slice as
the literal `null`; a non-empty accumulation marshals as the indented
array. -/
def marshalIndentFiles : List File → String
  | [] => "null"
  | fs => "[\n  " ++ String.intercalate ",\n  " (fs.map fileJSONIndented) ++ "\n]"

/-- Rendering following the spec's words, for comparison with
`marshalIndentFiles`: "a pretty-printed JSON array containing every
fetched record", i.e. the indented-array form for every record list,
including the empty one (which an array rendering prints as a bare
bracket pair). -/
def specFilesArray (fs : List File) : String :=
  if fs.isEmpty then "[]"
  else "[\n  " ++ String.intercalate ",\n  " (fs.map fileJSONIndented) ++ "\n]"

/-- Standard-output lines of the buckets command in names-only mode
with the memory sink (lines 299-302): one bucket name per forwarded
record, in order. -/
def onlyBucketLines (bs : List Bucket) : List String :=
  bs.map (fun b => b.bucket)

/-- Observable effect of `handleStats` (lines 310-324). -/
inductive StatsEffect where
  | stdoutBytes (data : List Nat)
  | fileWrite (path : String) (data : List Nat) (note : String)
  | fatal (msg : String)
deriving DecidableEq

/-- `handleStats` with the fetch outcome abstracted: on success the raw
body bytes pass through to standard output (empty output path) or to
the named file; a fetch error is fatal.  File-write failure is outside
the model. -/
def handleStats (fetched : Except String (List Nat)) (output : String) :
    StatsEffect :=
  match fetched with
  | .error e => .fatal ("request error: " ++ e)
  | .ok data =>
    if output = "" then .stdoutBytes data
    else .fileWrite output data ("stats saved to " ++ output ++ "\n")

/-- Bytes a `StatsEffect` emits as the run's artifact (the stdout body
or the file body). -/
def StatsEffect.bytesOut : StatsEffect → Option (List Nat)
  | .stdoutBytes d => some d
  | .fileWrite _ d _ => some d
  | .fatal _ => none

/-- The capture step leaves any tracker other than the -1 sentinel
unchanged. -/
theorem capture_ne (t r : Int) (h : t ≠ -1) : capture t r = t := by
  simp [capture, h]

/-- Folding the capture step over any offset list leaves a tracker
other than the -1 sentinel unchanged. -/
theorem totalAfter_ne (api : Int → Page α) (t : Int) (offs : List Int)
    (h : t ≠ -1) : totalAfter api t offs = t := by
  induction offs generalizing t with
  | nil => rfl
  | cons o os ih => rw [totalAfter, capture_ne t _ h]; exact ih t h

/-- The effective page size is always at least 1. -/
theorem clampPageSize_pos (limit : Int) : 1 ≤ clampPageSize limit := by
  unfold clampPageSize
  split <;> omega

/-- Unfolding of one loop iteration in which the stop condition holds:
the run ends with this single page. -/
theorem paginate_stop (api : Int → Page α) (fwd : List α → List α)
    (P : Int) (fuel : Nat) (S t f : Int)
    (h : ((api S).records.length : Int) < P ∨
      (capture t (api S).results > 0 ∧ S + P ≥ capture t (api S).results)) :
    paginate api fwd P (fuel + 1) S t f =
      some ⟨[S], fwd (api S).records,
        [progressLine (f + ((fwd (api S).records).length : Int))
          (capture t (api S).results)],
        capture t (api S).results⟩ := by
  simp only [paginate]
  rw [if_pos h]

/-- Unfolding of one loop iteration in which the stop condition fails:
the loop advances the offset by the page size and continues with the
captured total and updated cumulative count. -/
theorem paginate_go (api : Int → Page α) (fwd : List α → List α)
    (P : Int) (fuel : Nat) (S t f : Int)
    (h : ¬ (((api S).records.length : Int) < P ∨
      (capture t (api S).results > 0 ∧ S + P ≥ capture t (api S).results))) :
    paginate api fwd P (fuel + 1) S t f =
      (paginate api fwd P fuel (S + P) (capture t (api S).results)
        (f + ((fwd (api S).records).length : Int))).map
        (fun r => ⟨S :: r.offsets, fwd (api S).records ++ r.records,
          progressLine (f + ((fwd (api S).records).length : Int))
            (capture t (api S).results) :: r.progress, r.total⟩) := by
  simp only [paginate]
  rw [if_neg h]

/-- Shape of every completed run: the offsets start at the initial
offset, the forwarded records are the concatenation of the forwarded
pages at the requested offsets in order, the progress lines fold the
cumulative count and capture step along those offsets, the final total
is the capture fold, and the last requested page satisfied the stop
condition. -/
theorem paginate_spec (api : Int → Page α) (fwd : List α → List α)
    (P : Int) :
    ∀ (fuel : Nat) (S t f : Int) (r : Run α),
      paginate api fwd P fuel S t f = some r →
      r.offsets.head? = some S ∧
      r.records = (r.offsets.map (fun o => fwd (api o).records)).flatten ∧
      r.progress = progressOf api fwd f t r.offsets ∧
      r.total = totalAfter api t r.offsets ∧
      (∃ o, r.offsets.getLast? = some o ∧
        (((api o).records.length : Int) < P ∨
          (r.total > 0 ∧ o + P ≥ r.total))) := by
  intro fuel
  induction fuel with
  | zero => intro S t f r h; simp [paginate] at h
  | succ n ih =>
    intro S t f r h
    simp only [paginate] at h
    split at h
    case isTrue hc =>
      injection h with h
      subst h
      refine ⟨rfl, by simp, by simp [progressOf], by simp [totalAfter], S, rfl, ?_⟩
      simpa using hc
    case isFalse hc =>
      rw [Option.map_eq_some'] at h
      obtain ⟨r', hr', rfl⟩ := h
      obtain ⟨h1, h2, h3, h4, o, h5, h6⟩ :=
        ih (S + P) (capture t (api S).results)
          (f + ((fwd (api S).records).length : Int)) r' hr'
      obtain ⟨a, os, hos⟩ : ∃ a os, r'.offsets = a :: os := by
        cases hoffs : r'.offsets with
        | nil => rw [hoffs] at h1; simp at h1
        | cons a os => exact ⟨a, os, rfl⟩
      refine ⟨rfl, ?_, ?_, ?_, o, ?_, h6⟩
      · simp [h2]
      · simp only [progressOf]
        rw [h3]
      · simp only [totalAfter]
        rw [h4]
      · rw [hos] at h5 ⊢
        simpa using h5

/-- The stop condition at iteration 0, unfolded. -/
theorem stopCond_zero (api : Int → Page α) (P S t : Int) :
    stopCond api P S t 0 ↔
      (((api S).records.length : Int) < P ∨
        (capture t (api S).results > 0 ∧
          S + P ≥ capture t (api S).results)) := by
  unfold stopCond trackedTotal
  norm_num

/-- The stop condition at iteration `k + 1` is the stop condition at
iteration `k` of the run shifted by one page. -/
theorem stopCond_succ (api : Int → Page α) (P S t : Int) (k : Nat) :
    stopCond api P S t (k + 1) ↔
      stopCond api P (S + P) (capture t (api S).results) k := by
  unfold stopCond
  rw [show trackedTotal api P S t (k + 1) =
    trackedTotal api P (S + P) (capture t (api S).results) k from rfl]
  have h2 : S + ((k + 1 : Nat) : Int) * P = S + P + (k : Int) * P := by
    push_cast
    ring
  rw [h2]

/-- Mapping over an initial range, with the head peeled off. -/
theorem map_range_succ_shift (f : Nat → Int) (n : Nat) :
    (List.range (n + 1)).map f = f 0 :: (List.range n).map (fun k => f (k + 1)) := by
  rw [List.range_succ_eq_map, List.map_cons, List.map_map]
  rfl

/-- When the stop condition first holds at iteration `n` and the fuel
covers it, the loop completes and issues exactly the requests at
offsets `S, S+P, ..., S+n*P`, in that order. -/
theorem paginate_runs_to (api : Int → Page α) (fwd : List α → List α)
    (P : Int) :
    ∀ (n fuel : Nat) (S t f : Int), n < fuel →
      (∀ j, j < n → ¬ stopCond api P S t j) →
      stopCond api P S t n →
      ∃ r, paginate api fwd P fuel S t f = some r ∧
        r.offsets = (List.range (n + 1)).map (fun (k : Nat) => S + (k : Int) * P) := by
  intro n
  induction n with
  | zero =>
    intro fuel S t f hf _ hstop
    obtain ⟨m, rfl⟩ : ∃ m, fuel = m + 1 := ⟨fuel - 1, by omega⟩
    rw [stopCond_zero] at hstop
    exact ⟨_, paginate_stop api fwd P m S t f hstop, by simp [List.range_succ]⟩
  | succ n ihn =>
    intro fuel S t f hf hmin hstop
    obtain ⟨m, rfl⟩ : ∃ m, fuel = m + 1 := ⟨fuel - 1, by omega⟩
    have h0 : ¬ stopCond api P S t 0 := hmin 0 (Nat.succ_pos n)
    rw [stopCond_zero] at h0
    have hmin' : ∀ j, j < n →
        ¬ stopCond api P (S + P) (capture t (api S).results) j := by
      intro j hj
      rw [← stopCond_succ]
      exact hmin (j + 1) (by omega)
    have hstop' : stopCond api P (S + P) (capture t (api S).results) n :=
      (stopCond_succ api P S t n).mp hstop
    obtain ⟨r', hr', hoffs⟩ :=
      ihn m (S + P) (capture t (api S).results)
        (f + ((fwd (api S).records).length : Int)) (by omega) hmin' hstop'
    refine ⟨⟨S :: r'.offsets, fwd (api S).records ++ r'.records,
      progressLine (f + ((fwd (api S).records).length : Int))
        (capture t (api S).results) :: r'.progress, r'.total⟩, ?_, ?_⟩
    · rw [paginate_go api fwd P m S t f h0, hr']
      rfl
    · show S :: r'.offsets = _
      rw [hoffs, map_range_succ_shift (fun (k : Nat) => S + (k : Int) * P) (n + 1)]
      congr 1
      · push_cast
        ring
      · refine List.map_congr_left ?_
        intro k _
        push_cast
        ring

/-- Progress emits exactly one line per requested offset. -/
theorem progressOf_length (api : Int → Page α) (fwd : List α → List α)
    (offs : List Int) :
    ∀ f t : Int, (progressOf api fwd f t offs).length = offs.length := by
  induction offs with
  | nil => intro f t; rfl
  | cons o os ih =>
    intro f t
    simp only [progressOf, List.length_cons]
    rw [ih]

/-- Sample file record used in concrete runs. -/
def fileSample : File := ⟨.num 1, "b", .num 2, "n", "u", 10, "pdf", 0⟩

/-- Page source whose every page is empty and reports a total of 0. -/
def apiZeroTotal : Int → Page File := fun _ => ⟨[], 0⟩

/-- The completed run of `apiZeroTotal`. -/
def runZeroTotal : Run File := ⟨[0], [], [progressLine 0 0], 0⟩

/-- C1 counterexample: with a first page whose envelope reports a total
of zero, the tracked total after the first iteration is 0, not the -1
sentinel the claim says is kept: the code overwrites the sentinel with
the reported value, zero included, whenever the tracker still holds -1. -/
theorem c1_counterexample :
    (handleFiles apiZeroTotal 1000 0 1).map Run.total ≠ some (-1) := by
  decide

/-- C1 amended: the reported total is captured from the envelope only
while the tracker still holds the -1 sentinel (in particular on the
first page, and a tracker other than -1 is never overwritten); when the
first page reports zero the tracked total becomes 0 rather than staying
-1, and that 0 is treated as unknown by every later total-based check,
so such a run can stop only on a short page. -/
theorem c1_amended (api : Int → Page α) (fwd : List α → List α)
    (P S t f : Int) (fuel : Nat) (r : Run α)
    (hr : paginate api fwd P fuel S t f = some r) :
    (t ≠ -1 → r.total = t) ∧
    ((t = -1 ∧ (api S).results = 0) →
      r.total = 0 ∧
      ∃ o, r.offsets.getLast? = some o ∧
        ((api o).records.length : Int) < P) := by
  obtain ⟨h1, _, _, h4, o, h5, h6⟩ := paginate_spec api fwd P fuel S t f r hr
  constructor
  · intro ht
    rw [h4, totalAfter_ne api t r.offsets ht]
  · rintro ⟨rfl, hres⟩
    obtain ⟨a, os, hos⟩ : ∃ a os, r.offsets = a :: os := by
      cases hoffs : r.offsets with
      | nil => rw [hoffs] at h1; simp at h1
      | cons a os => exact ⟨a, os, rfl⟩
    have ha : a = S := by
      rw [hos] at h1
      simpa using h1
    have htot : r.total = 0 := by
      rw [h4, hos, totalAfter, ha, hres]
      rw [show capture (-1) 0 = 0 from rfl]
      exact totalAfter_ne api 0 os (by norm_num)
    refine ⟨htot, o, h5, ?_⟩
    rcases h6 with h | h
    · exact h
    · rw [htot] at h
      exact absurd h.1 (by norm_num)

/-- C1 amended witness: the concrete empty first page reporting zero. -/
theorem c1_amended_witness :
    paginate apiZeroTotal id 1000 1 0 (-1) 0 = some runZeroTotal ∧
    (((-1 : Int) ≠ -1 → runZeroTotal.total = -1) ∧
      (((-1 : Int) = -1 ∧ (apiZeroTotal 0).results = 0) →
        runZeroTotal.total = 0 ∧
        ∃ o, runZeroTotal.offsets.getLast? = some o ∧
          ((apiZeroTotal o).records.length : Int) < 1000)) :=
  ⟨by decide, c1_amended apiZeroTotal id 1000 0 (-1) 0 1 runZeroTotal (by decide)⟩

/-- C4: the effective page size equals the requested limit when it lies
in the inclusive range 1..1000 and is exactly 1000 for every value
outside that range, including 0 and negatives; both commands drive
their whole run, hence every request, with this clamped page size. -/
theorem c4_page_size_clamp :
    (∀ limit : Int,
      clampPageSize limit =
        if 1 ≤ limit ∧ limit ≤ 1000 then limit else 1000) ∧
    (∀ (api : Int → Page File) (limit start : Int) (fuel : Nat),
      handleFiles api limit start fuel =
        paginate api id (clampPageSize limit) fuel start (-1) 0) ∧
    (∀ (api : Int → Page Bucket) (ct : String) (limit start : Int) (fuel : Nat),
      handleBuckets api ct limit start fuel =
        paginate api (filterBuckets ct) (clampPageSize limit) fuel start (-1) 0) := by
  refine ⟨?_, fun _ _ _ _ => rfl, fun _ _ _ _ _ => rfl⟩
  intro limit
  unfold clampPageSize
  split <;> split <;> omega

/-- C6: for every file record the CSV row and the JSON object carry
identical field values in every position except the timestamp: the
first seven CSV cells are exactly the plain renderings of the first
seven JSON fields, while the final CSV cell is the RFC-3339 text
derived from the epoch-seconds value whose raw integer the final JSON
field preserves.  Grounding the format, epoch 0 renders as
1970-01-01T00:00:00Z. -/
theorem c6_csv_json_agree :
    (∀ f : File,
      (fileCSVRow f).take 7 =
        ((fileJSONFields f).take 7).map (fun p => p.2.plain) ∧
      (fileCSVRow f).getLast? = some (rfc3339FromEpoch f.lastModified) ∧
      (fileJSONFields f).getLast? =
        some ("lastModified", JsonVal.num f.lastModified)) ∧
    rfc3339FromEpoch 0 = "1970-01-01T00:00:00Z" := by
  refine ⟨fun f => ⟨?_, rfl, rfl⟩, by decide⟩
  cases hid : f.id <;> cases hbid : f.bucketId <;>
    simp [fileCSVRow, fileJSONFields, JsonVal.plain, sprintAny, anyToJson,
      hid, hbid]

/-- C8: on a successful stats fetch the emitted artifact bytes, whether
printed to standard output (empty output path) or written to the named
file, are exactly the bytes the fetcher returned. -/
theorem c8_stats_verbatim :
    ∀ (data : List Nat) (output : String),
      (handleStats (Except.ok data) output).bytesOut = some data := by
  intro data output
  simp only [handleStats]
  split <;> rfl

/-- C2: when the first page's envelope reports a total of 0 and the raw
page holds exactly the page size of records, the loop does not stop
after that page but issues the next request at offset S + P; and with a
zero first-page total a completed run can only ever have stopped on a
short page (strictly fewer records than the page size). -/
theorem c2_zero_total_continues (api : Int → Page α) (fwd : List α → List α)
    (P S : Int) (fuel : Nat) (r : Run α)
    (hres : (api S).results = 0)
    (hfull : ((api S).records.length : Int) = P)
    (hr : paginate api fwd P fuel S (-1) 0 = some r) :
    (2 ≤ r.offsets.length ∧ r.offsets[1]? = some (S + P)) ∧
    ∃ o, r.offsets.getLast? = some o ∧
      ((api o).records.length : Int) < P := by
  obtain ⟨m, rfl⟩ : ∃ m, fuel = m + 1 := by
    cases fuel with
    | zero => simp [paginate] at hr
    | succ m => exact ⟨m, rfl⟩
  have hcap : capture (-1) (api S).results = 0 := by
    rw [hres]
    rfl
  have hnostop : ¬ (((api S).records.length : Int) < P ∨
      (capture (-1) (api S).results > 0 ∧
        S + P ≥ capture (-1) (api S).results)) := by
    rw [hcap, hfull]
    push_neg
    exact ⟨le_refl P, fun h => absurd h (by norm_num)⟩
  rw [paginate_go api fwd P m S (-1) 0 hnostop, hcap, Option.map_eq_some'] at hr
  obtain ⟨r', hr', rfl⟩ := hr
  obtain ⟨h1, _, _, h4, o, h5, h6⟩ :=
    paginate_spec api fwd P m (S + P) 0 _ r' hr'
  obtain ⟨a, os, hos⟩ : ∃ a os, r'.offsets = a :: os := by
    cases hoffs : r'.offsets with
    | nil => rw [hoffs] at h1; simp at h1
    | cons a os => exact ⟨a, os, rfl⟩
  have htot : r'.total = 0 := by
    rw [h4]
    exact totalAfter_ne api 0 r'.offsets (by norm_num)
  constructor
  · constructor
    · show 2 ≤ (S :: r'.offsets).length
      rw [hos]
      simp
    · show (S :: r'.offsets)[1]? = some (S + P)
      rw [hos]
      rw [hos] at h1
      simpa using h1
  · refine ⟨o, ?_, ?_⟩
    · show (S :: r'.offsets).getLast? = some o
      rw [hos] at h5 ⊢
      simpa using h5
    · rcases h6 with h | h
      · exact h
      · rw [htot] at h
        exact absurd h.1 (by norm_num)

/-- Page source for the C2 witness: a full one-record first page that
reports total 0, then an empty page. -/
def apiOnePage : Int → Page File :=
  fun o => if o = 0 then ⟨[fileSample], 0⟩ else ⟨[], 0⟩

/-- The completed two-request run of `apiOnePage`. -/
def runOnePage : Run File :=
  ⟨[0, 1], [fileSample], [progressLine 1 0, progressLine 1 0], 0⟩

/-- C2 witness: the concrete full first page reporting zero total. -/
theorem c2_witness :
    (apiOnePage 0).results = 0 ∧
    ((apiOnePage 0).records.length : Int) = 1 ∧
    paginate apiOnePage id 1 3 0 (-1) 0 = some runOnePage ∧
    ((2 ≤ runOnePage.offsets.length ∧
        runOnePage.offsets[1]? = some (0 + 1)) ∧
      ∃ o, runOnePage.offsets.getLast? = some o ∧
        ((apiOnePage o).records.length : Int) < 1) :=
  ⟨rfl, by decide, by decide,
    c2_zero_total_continues apiOnePage id 1 0 3 runOnePage rfl (by decide)
      (by decide)⟩

/-- C3: for every page size P in 1..1000, every starting offset S and
every deterministic page source, the loop issues its requests at
offsets S, S+P, S+2P, ... in that order, and completes at exactly the
first iteration n at which the returned page is strictly shorter than P
or the positive tracked total is reached or exceeded by offset + P. -/
theorem c3_offset_order_and_stop (api : Int → Page α)
    (fwd : List α → List α) (P S : Int) (n fuel : Nat)
    (_hP1 : 1 ≤ P) (_hP2 : P ≤ 1000) (hfuel : n < fuel)
    (hmin : ∀ j, j < n → ¬ stopCond api P S (-1) j)
    (hstop : stopCond api P S (-1) n) :
    ∃ r, paginate api fwd P fuel S (-1) 0 = some r ∧
      r.offsets =
        (List.range (n + 1)).map (fun (k : Nat) => S + (k : Int) * P) :=
  paginate_runs_to api fwd P n fuel S (-1) 0 hfuel hmin hstop

/-- Page source for the C3 witness: a full first page with total 3,
then a short page. -/
def apiTwoPages : Int → Page File :=
  fun o => if o = 0 then ⟨[fileSample, fileSample], 3⟩ else ⟨[fileSample], 3⟩

/-- C3 witness: page size 2 from offset 0; the loop requests offsets 0
and 2 and stops at iteration 1, the first short page. -/
theorem c3_witness :
    (1 : Int) ≤ 2 ∧ (2 : Int) ≤ 1000 ∧ 1 < 3 ∧
    (∀ j, j < 1 → ¬ stopCond apiTwoPages 2 0 (-1) j) ∧
    stopCond apiTwoPages 2 0 (-1) 1 ∧
    ∃ r, paginate apiTwoPages id 2 3 0 (-1) 0 = some r ∧
      r.offsets =
        (List.range 2).map (fun (k : Nat) => 0 + (k : Int) * 2) :=
  ⟨by norm_num, by norm_num, by norm_num, by decide, by decide,
    c3_offset_order_and_stop apiTwoPages id 2 0 1 3 (by norm_num)
      (by norm_num) (by norm_num) (by decide) (by decide)⟩

/-- Concrete buckets for the C5 example page. -/
def bucketAws1 : Bucket := ⟨.num 1, "aws-one", 10, "aws"⟩

/-- Second record of the C5 example page. -/
def bucketAzure1 : Bucket := ⟨.num 2, "az-one", 5, "azure"⟩

/-- Third record of the C5 example page, with an upper-case tag to
exercise the case-insensitive match. -/
def bucketAws2 : Bucket := ⟨.num 3, "aws-two", 7, "AWS"⟩

/-- Fourth record of the C5 example page. -/
def bucketAzure2 : Bucket := ⟨.num 4, "az-two", 1, "azure"⟩

/-- Fifth record of the C5 example page. -/
def bucketAws3 : Bucket := ⟨.num 5, "aws-three", 2, "aws"⟩

/-- Page source for the C5 example: one short page of three aws and two
azure buckets, interleaved. -/
def apiMixedBuckets : Int → Page Bucket := fun _ =>
  ⟨[bucketAws1, bucketAzure1, bucketAws2, bucketAzure2, bucketAws3], 5⟩

/-- The completed run of `apiMixedBuckets` under filter aws. -/
def runMixedBuckets : Run Bucket :=
  ⟨[0], [bucketAws1, bucketAws2, bucketAws3], [progressLine 3 5], 5⟩

/-- C5: with a non-empty cloud type filter, the records a buckets run
forwards to the sink are exactly the case-insensitive type matches of
each fetched page, in arrival order; concretely, a page of three aws
and two azure buckets under filter aws in names-only mode yields
exactly the three aws bucket names, in arrival order. -/
theorem c5_type_filter (api : Int → Page Bucket) (ct : String)
    (limit S : Int) (fuel : Nat) (r : Run Bucket)
    (hct : ct ≠ "")
    (hr : handleBuckets api ct limit S fuel = some r) :
    r.records =
      (r.offsets.map (fun o =>
        (api o).records.filter (fun b => eqFold b.type ct))).flatten ∧
    (handleBuckets apiMixedBuckets "aws" 1000 0 2).map
        (fun r0 => onlyBucketLines r0.records) =
      some ["aws-one", "aws-two", "aws-three"] := by
  refine ⟨?_, by decide⟩
  obtain ⟨_, h2, _, _, _⟩ :=
    paginate_spec api (filterBuckets ct) (clampPageSize limit) fuel S
      (-1) 0 r hr
  rw [h2]
  refine congrArg List.flatten ?_
  refine List.map_congr_left ?_
  intro o _
  rw [filterBuckets, if_neg hct]

/-- C5 witness: the mixed aws/azure page under the aws filter. -/
theorem c5_witness :
    ("aws" : String) ≠ "" ∧
    handleBuckets apiMixedBuckets "aws" 1000 0 2 = some runMixedBuckets ∧
    (runMixedBuckets.records =
      (runMixedBuckets.offsets.map (fun o =>
        (apiMixedBuckets o).records.filter
          (fun b => eqFold b.type "aws"))).flatten ∧
      (handleBuckets apiMixedBuckets "aws" 1000 0 2).map
          (fun r0 => onlyBucketLines r0.records) =
        some ["aws-one", "aws-two", "aws-three"]) :=
  ⟨by decide, by decide,
    c5_type_filter apiMixedBuckets "aws" 1000 0 2 runMixedBuckets
      (by decide) (by decide)⟩

/-- Page source whose every page is empty but reports a total of 7. -/
def apiEmptyFirst : Int → Page File := fun _ => ⟨[], 7⟩

/-- The completed run of `apiEmptyFirst`. -/
def runEmptyFirst : Run File := ⟨[0], [], [progressLine 0 7], 7⟩

/-- C7 counterexample: for the run whose first page is empty, the text
the program writes to standard output renders Go's still-nil
accumulator slice as the JSON literal null, which is not the
pretty-printed JSON array (a bare bracket pair for zero records) that
the claim describes. -/
theorem c7_counterexample :
    (handleFiles apiEmptyFirst 1000 0 1).map
        (fun r => marshalIndentFiles r.records) ≠
      (handleFiles apiEmptyFirst 1000 0 1).map
        (fun r => specFilesArray r.records) := by
  decide

/-- C7 amended: with the memory sink the records accumulate in arrival
order across pages with their envelope fields untouched; the final
standard-output text is the pretty-printed JSON array of those records
whenever at least one record was fetched, but the literal null when
none was (Go marshals the untouched nil slice as null); and an empty
first page terminates the run immediately after its single request with
zero output records. -/
theorem c7_amended (api : Int → Page File) (limit S : Int)
    (fuel : Nat) (r : Run File)
    (hr : handleFiles api limit S fuel = some r) :
    r.records = (r.offsets.map (fun o => (api o).records)).flatten ∧
    (r.records ≠ [] →
      marshalIndentFiles r.records = specFilesArray r.records) ∧
    ((api S).records = [] → r.offsets = [S] ∧ r.records = []) := by
  obtain ⟨_, h2, _, _, _⟩ :=
    paginate_spec api id (clampPageSize limit) fuel S (-1) 0 r hr
  refine ⟨h2, ?_, ?_⟩
  · intro hne
    cases hrec : r.records with
    | nil => exact absurd hrec hne
    | cons a l => simp [marshalIndentFiles, specFilesArray]
  · intro hS
    obtain ⟨m, rfl⟩ : ∃ m, fuel = m + 1 := by
      cases fuel with
      | zero => simp [handleFiles, paginate] at hr
      | succ m => exact ⟨m, rfl⟩
    unfold handleFiles at hr
    rw [paginate_stop api id (clampPageSize limit) m S (-1) 0 ?_] at hr
    · injection hr with hr
      subst hr
      exact ⟨rfl, by simp [hS]⟩
    · left
      rw [hS]
      have := clampPageSize_pos limit
      simp only [List.length_nil, Nat.cast_zero]
      omega

/-- C7 amended witness: the empty first page reporting total 7. -/
theorem c7_amended_witness :
    handleFiles apiEmptyFirst 1000 0 1 = some runEmptyFirst ∧
    (runEmptyFirst.records =
      (runEmptyFirst.offsets.map
        (fun o => (apiEmptyFirst o).records)).flatten ∧
    (runEmptyFirst.records ≠ [] →
      marshalIndentFiles runEmptyFirst.records =
        specFilesArray runEmptyFirst.records) ∧
    ((apiEmptyFirst 0).records = [] →
      runEmptyFirst.offsets = [0] ∧ runEmptyFirst.records = [])) :=
  ⟨by decide, c7_amended apiEmptyFirst 1000 0 1 runEmptyFirst (by decide)⟩

/-- C9 counterexample: the progress text printed after a page with 3
cumulative records out of a known total of 10 is the Chinese
已获取 3 / 10 条, not the English text the claim states. -/
theorem c9_counterexample :
    progressLine 3 10 ≠ "fetched 3 / 10 records" := by
  decide

/-- C9 amended: a completed run prints exactly one progress line per
requested page, obtained by folding the cumulative forwarded count and
the capture step along the request offsets; each line starts with a
carriage return (overwriting the same console line in place) and reads
已获取 X / Y 条 (Chinese for "fetched X / Y records") when the tracked
total Y is positive, and 已获取 X 条 ("fetched X records") when the
total is unknown, X being the cumulative count. -/
theorem c9_amended (api : Int → Page α) (fwd : List α → List α)
    (P S t f : Int) (fuel : Nat) (r : Run α)
    (hr : paginate api fwd P fuel S t f = some r) :
    r.progress = progressOf api fwd f t r.offsets ∧
    r.progress.length = r.offsets.length ∧
    (∀ fetched total : Int,
      progressLine fetched total =
        if total > 0 then
          "\r已获取 " ++ toString fetched ++ " / " ++
            toString total ++ " 条"
        else "\r已获取 " ++ toString fetched ++ " 条") := by
  obtain ⟨_, _, h3, _, _⟩ := paginate_spec api fwd P fuel S t f r hr
  refine ⟨h3, ?_, fun _ _ => rfl⟩
  rw [h3]
  exact progressOf_length api fwd r.offsets f t

/-- The completed two-request run of `apiTwoPages`. -/
def runTwoPages : Run File :=
  ⟨[0, 2], [fileSample, fileSample, fileSample],
    [progressLine 2 3, progressLine 3 3], 3⟩

/-- C9 amended witness: the concrete two-page run. -/
theorem c9_amended_witness :
    paginate apiTwoPages id 2 3 0 (-1) 0 = some runTwoPages ∧
    (runTwoPages.progress =
      progressOf apiTwoPages id 0 (-1) runTwoPages.offsets ∧
    runTwoPages.progress.length = runTwoPages.offsets.length ∧
    (∀ fetched total : Int,
      progressLine fetched total =
        if total > 0 then
          "\r已获取 " ++ toString fetched ++ " / " ++
            toString total ++ " 条"
        else "\r已获取 " ++ toString fetched ++ " 条")) :=
  ⟨by decide, c9_amended apiTwoPages id 2 0 (-1) 0 3 runTwoPages (by decide)⟩

/-- C10: the buckets stop decision compares the raw decoded page length
(before client-side filtering) with the page size, so a full page whose
records are all removed by the type filter forwards zero records for
that page yet does not terminate pagination: the loop recurses at
offset S + P with the forwarded-records accumulator unchanged and the
cumulative count still 0. -/
theorem c10_raw_count_stops (api : Int → Page Bucket) (ct : String)
    (limit S : Int) (fuel : Nat)
    (hfull : ¬ (((api S).records.length : Int) < clampPageSize limit))
    (hfilt : filterBuckets ct (api S).records = [])
    (hnt : ¬ (capture (-1) (api S).results > 0 ∧
      S + clampPageSize limit ≥ capture (-1) (api S).results)) :
    handleBuckets api ct limit S (fuel + 1) =
      (paginate api (filterBuckets ct) (clampPageSize limit) fuel
        (S + clampPageSize limit) (capture (-1) (api S).results) 0).map
        (fun r => ⟨S :: r.offsets, r.records,
          progressLine 0 (capture (-1) (api S).results) :: r.progress,
          r.total⟩) := by
  unfold handleBuckets
  rw [paginate_go api (filterBuckets ct) (clampPageSize limit) fuel S
    (-1) 0 (not_or.mpr ⟨hfull, hnt⟩)]
  rw [hfilt]
  simp

/-- Page source for the C10 witness: a full page of azure buckets
reporting total 0, then an empty page. -/
def apiAzureOnly : Int → Page Bucket :=
  fun o => if o = 0 then ⟨[bucketAzure1, bucketAzure2], 0⟩ else ⟨[], 0⟩

/-- C10 witness: page size 2, filter aws, both first-page records
filtered out, yet the loop issues the request at offset 2. -/
theorem c10_witness :
    ¬ (((apiAzureOnly 0).records.length : Int) < clampPageSize 2) ∧
    filterBuckets "aws" (apiAzureOnly 0).records = [] ∧
    ¬ (capture (-1) (apiAzureOnly 0).results > 0 ∧
      (0 : Int) + clampPageSize 2 ≥ capture (-1) (apiAzureOnly 0).results) ∧
    handleBuckets apiAzureOnly "aws" 2 0 (1 + 1) =
      (paginate apiAzureOnly (filterBuckets "aws") (clampPageSize 2) 1
        (0 + clampPageSize 2) (capture (-1) (apiAzureOnly 0).results) 0).map
        (fun r => ⟨0 :: r.offsets, r.records,
          progressLine 0 (capture (-1) (apiAzureOnly 0).results) :: r.progress,
          r.total⟩) :=
  ⟨by decide, by decide, by decide,
    c10_raw_count_stops apiAzureOnly "aws" 2 0 1 (by decide) (by decide)
      (by decide)⟩

end BucketSearch
